import Mathlib

/-!
# wssvc: the diagnostic WebSocket endpoint of `wssvc.go`

A shallow embedding of the per-connection command interpreter (`handleTextMessage`),
the file-send operation (`sendMeFile`), the control-frame helper (`sendControlMessage`),
the Auto-Ping goroutine (`startPingCmd`), the three connection handlers and the body of
the read loop of `wsEndpoint`.

Go strings and byte slices are sequences of byte values.  The connection, the file
system and the two process-wide channels are an explicit state `Sys`; what the
transport and the file system answer is an oracle `Env` that may depend on everything
done so far.
-/

namespace Wssvc

/-- A Go `string` or `[]byte`: its bytes, in order (each value is a byte, `0..255`). -/
abbrev GoString := List Nat

/-- The bytes of a string literal of the source (all literals of `wssvc.go` are ASCII). -/
def ascii (s : String) : GoString := s.toList.map Char.toNat

namespace strings

/-- Go `strings.HasPrefix(s, pre)`: `s` begins with the bytes `pre`. -/
def HasPrefix (s pre : GoString) : Bool := pre.isPrefixOf s

/-- Go `strings.Contains(s, substr)`: `substr` occurs in `s` at some byte offset. -/
def Contains : GoString → GoString → Bool
  | [], substr => HasPrefix [] substr
  | c :: t, substr => HasPrefix (c :: t) substr || Contains t substr

/-- Go `strings.ReplaceAll(s, old, "")`, the only form the program calls: scanning from
the left, every non-overlapping occurrence of `old` is dropped and every other byte is
kept.  With the empty replacement an empty `old` equals the replacement and Go returns
`s` unchanged. -/
def ReplaceAll (s old : GoString) : GoString :=
  if old = [] then s
  else if HasPrefix s old = true then ReplaceAll (s.drop old.length) old
  else
    match s with
    | [] => []
    | c :: t => c :: ReplaceAll t old
termination_by s.length
decreasing_by
  · rename_i h hp
    have hlen : old.length ≤ s.length := (List.isPrefixOf_iff_prefix.mp hp).length_le
    have hpos : 0 < old.length := List.length_pos.mpr h
    simp only [List.length_drop]
    omega
  · simp

end strings

/-! ## Constants of `wssvc.go` and of the websocket library -/

def pingMeCmd : GoString := ascii "ping me"
def pongMeCmd : GoString := ascii "pong me"
def startPingMeCmd : GoString := ascii "start ping me"
def stopPingMeCmd : GoString := ascii "stop ping me"
def disconnectMeCmd : GoString := ascii "disconnect me"
def sendMeCmdPrefix : GoString := ascii "send me file://"


namespace websocket

/-- Message type constants of `github.com/gorilla/websocket` (RFC 6455 opcodes). -/
def TextMessage : Int := 1
def BinaryMessage : Int := 2
def CloseMessage : Int := 8
def PingMessage : Int := 9
def PongMessage : Int := 10

end websocket

/-! ## Errors, effects, environment and state -/

/-- The Go `error` values the program meets. -/
inductive GoError
  /-- The value of `errors.New(text)`. -/
  | errorsNew (text : String)
  /-- An error returned by a write on the websocket connection. -/
  | conn (id : Nat)
  /-- An error returned by `os.ReadFile`. -/
  | os (id : Nat)
  deriving DecidableEq, Repr

/-- One operation attempted on the connection or the file system. -/
inductive Effect
  /-- The call `conn.WriteControl(messageType, data, deadline)`; the deadline is
  `time.Now().Add(controlWait)` at every call site and is not recorded. -/
  | WriteControl (messageType : Int) (data : GoString)
  /-- The call `conn.WriteMessage(messageType, data)`. -/
  | WriteMessage (messageType : Int) (data : GoString)
  /-- The call `os.ReadFile(name)`. -/
  | ReadFile (name : GoString)
  deriving DecidableEq, Repr

/-- What the transport and the file system answer.  Each answer may depend on all the
operations attempted before (the first argument); `none` is Go's `nil` error. -/
structure Env where
  WriteControl : List Effect → Int → GoString → Option GoError
  WriteMessage : List Effect → Int → GoString → Option GoError
  ReadFile : List Effect → GoString → Except GoError GoString

/-- Where a live `startPingCmd` goroutine stands in its `for` loop: about to call
`sendControlMessage` (line 39) or about to run its `select` (line 43). -/
inductive PingPc
  | write
  | select
  deriving DecidableEq, Repr

/-- The state of the process as far as one connection sees it.  `stopOnClose` and
`stopOnCancel` are the two unbuffered channels (lines 29-30): since no receiver ever
waits on them (the only receive is a `select` with a `default`), each holds the values
of the goroutines currently parked in a send. -/
structure Sys where
  /-- Operations attempted so far, oldest first. -/
  trace : List Effect
  /-- The live `startPingCmd` goroutines, oldest first. -/
  pings : List PingPc
  /-- Values of the senders parked on `stopOnClose`, oldest first. -/
  stopOnClose : List Int
  /-- Values of the senders parked on `stopOnCancel`, oldest first. -/
  stopOnCancel : List GoString
  deriving DecidableEq, Repr

/-- How far a call of the session goroutine got. -/
inductive Outcome (α : Type)
  /-- The call returned `r`, leaving the state `s`. -/
  | returned (s : Sys) (r : α)
  /-- The goroutine is parked in a send on an unbuffered channel, its value queued in
  `s`; once a receiver takes the value the call returns `r`. -/
  | parked (s : Sys) (r : α)
  deriving DecidableEq, Repr

/-- What the `for` loop of `wsEndpoint` does after one frame: read the next frame, or
return (which runs the deferred `conn.Close()`). -/
inductive LoopStep
  | next
  | exit
  deriving DecidableEq, Repr

/-- The state after one more operation has been attempted. -/
def Sys.did (s : Sys) (e : Effect) : Sys := { s with trace := s.trace ++ [e] }

/-! ## The functions of `wssvc.go` (log calls omitted) -/

/-- Lines 91-100: one `conn.WriteControl`; its error, if any, is returned. -/
def sendControlMessage (env : Env) (messageType : Int) (message : GoString) (s : Sys) :
    Sys × Option GoError :=
  let err := env.WriteControl s.trace messageType message
  let s1 := s.did (Effect.WriteControl messageType message)
  match err with
  | some e => (s1, some e)
  | none => (s1, none)

/-- Lines 64-89.  `fullPath` is only logged; the name given to `os.ReadFile` is
`filePath`. -/
def sendMeFile (env : Env) (msg : GoString) (fsRoot : GoString) (s : Sys) :
    Sys × Option GoError :=
  let filePath := strings.ReplaceAll msg sendMeCmdPrefix
  if strings.Contains filePath (ascii "..") = true then
    let (s1, _err) := sendControlMessage env websocket.CloseMessage (ascii "close on read") s
    (s1, some (GoError.errorsNew "Reading file outside root"))
  else
    let _fullPath := fsRoot ++ ascii "/" ++ filePath
    let s1 := s.did (Effect.ReadFile filePath)
    match env.ReadFile s.trace filePath with
    | Except.error e => (s1, some e)
    | Except.ok fileContentBytes =>
      let err := env.WriteMessage s1.trace websocket.BinaryMessage fileContentBytes
      let s2 := s1.did (Effect.WriteMessage websocket.BinaryMessage fileContentBytes)
      match err with
      | some e => (s2, some e)
      | none => (s2, none)

/-- Lines 102-122.  `go startPingCmd(conn)` adds a goroutine standing at its first
write; `stopOnCancel <- "cancelPing"` parks the caller in the channel's send queue. -/
def handleTextMessage (env : Env) (msg : GoString) (s : Sys) : Outcome (Option GoError) :=
  if msg = pingMeCmd then
    let (s1, err) := sendControlMessage env websocket.PingMessage pingMeCmd s
    Outcome.returned s1 err
  else if msg = pongMeCmd then
    let (s1, err) := sendControlMessage env websocket.PongMessage pongMeCmd s
    Outcome.returned s1 err
  else if msg = disconnectMeCmd then
    let (s1, err) := sendControlMessage env websocket.CloseMessage disconnectMeCmd s
    Outcome.returned s1 err
  else if msg = startPingMeCmd then
    Outcome.returned { s with pings := s.pings ++ [PingPc.write] } none
  else if msg = stopPingMeCmd then
    Outcome.parked { s with stopOnCancel := s.stopOnCancel ++ [ascii "cancelPing"] } none
  else if strings.HasPrefix msg sendMeCmdPrefix = true then
    let (s1, err) := sendMeFile env msg (ascii "/tmp") s
    Outcome.returned s1 err
  else
    let err := env.WriteMessage s.trace websocket.TextMessage msg
    Outcome.returned (s.did (Effect.WriteMessage websocket.TextMessage msg)) err

/-- Lines 37-62: one step of the `i`-th live `startPingCmd` goroutine.  At its write it
sends a ping control frame and returns on an error.  At its `select` it takes a value
from a channel that has a parked sender and returns (every receive branch returns);
when both channels have one, `preferClose` says which case Go picks; when neither has,
the `default` case sleeps and the loop starts over.  `none`: there is no such goroutine. -/
def startPingCmdStep (env : Env) (i : Nat) (preferClose : Bool) (s : Sys) : Option Sys :=
  match s.pings.get? i with
  | none => none
  | some PingPc.write =>
    match sendControlMessage env websocket.PingMessage startPingMeCmd s with
    | (s1, some _) => some { s1 with pings := s1.pings.eraseIdx i }
    | (s1, none) => some { s1 with pings := s1.pings.set i PingPc.select }
  | some PingPc.select =>
    match s.stopOnClose, s.stopOnCancel with
    | _ :: closeRest, [] =>
      some { s with stopOnClose := closeRest, pings := s.pings.eraseIdx i }
    | [], _ :: cancelRest =>
      some { s with stopOnCancel := cancelRest, pings := s.pings.eraseIdx i }
    | stop :: closeRest, cancel :: cancelRest =>
      if preferClose then
        some { s with stopOnClose := closeRest, stopOnCancel := cancel :: cancelRest,
                      pings := s.pings.eraseIdx i }
      else
        some { s with stopOnClose := stop :: closeRest, stopOnCancel := cancelRest,
                      pings := s.pings.eraseIdx i }
    | [], [] => some { s with pings := s.pings.set i PingPc.write }

/-- A run of the `startPingCmd` goroutines under a schedule: each entry names the
goroutine that steps next and its `select` preference; an entry naming no live
goroutine is skipped. -/
def runPings (env : Env) : List (Nat × Bool) → Sys → Sys
  | [], s => s
  | (i, preferClose) :: rest, s =>
    match startPingCmdStep env i preferClose s with
    | some s1 => runPings env rest s1
    | none => runPings env rest s

/-- Lines 137-141, the close handler: `stopOnClose <- 1` parks the session goroutine
in the channel's send queue; `return nil` comes after a receiver has taken the value. -/
def closeHandler (_code : Int) (_text : GoString) (s : Sys) : Outcome (Option GoError) :=
  Outcome.parked { s with stopOnClose := s.stopOnClose ++ [1] } none

/-- Lines 142-151, the ping handler. -/
def pingHandler (env : Env) (payload : GoString) (s : Sys) : Sys × Option GoError :=
  let err := env.WriteControl s.trace websocket.PongMessage payload
  let s1 := s.did (Effect.WriteControl websocket.PongMessage payload)
  match err with
  | some e => (s1, some e)
  | none => (s1, none)

/-- Lines 152-155, the pong handler. -/
def pongHandler (_payload : GoString) (s : Sys) : Sys × Option GoError := (s, none)

/-- Lines 166-183: what the loop of `wsEndpoint` does with a frame `(mt, msg)` that
`conn.ReadMessage()` returned without an error. -/
def wsEndpointBody (env : Env) (mt : Int) (msg : GoString) (s : Sys) : Outcome LoopStep :=
  if mt = websocket.CloseMessage then
    Outcome.returned s LoopStep.next
  else if mt = websocket.BinaryMessage then
    let err := env.WriteMessage s.trace mt msg
    let s1 := s.did (Effect.WriteMessage mt msg)
    match err with
    | some _ => Outcome.returned s1 LoopStep.exit
    | none => Outcome.returned s1 LoopStep.next
  else if mt = websocket.TextMessage then
    match handleTextMessage env msg s with
    | Outcome.returned s1 (some _) => Outcome.returned s1 LoopStep.exit
    | Outcome.returned s1 none => Outcome.returned s1 LoopStep.next
    | Outcome.parked s1 (some _) => Outcome.parked s1 LoopStep.exit
    | Outcome.parked s1 none => Outcome.parked s1 LoopStep.next
  else
    Outcome.returned s LoopStep.next


/-- The loop step that follows an interpreter result: an error ends the loop (lines
177-180), `nil` lets it read the next frame. -/
def stepAfter : Option GoError → LoopStep
  | some _ => LoopStep.exit
  | none => LoopStep.next

/-- The outcome of a caller that turns the result of a call into its own result and
does nothing else: it has returned when the call has, and is parked while the call is. -/
def Outcome.map {α β : Type} (f : α → β) : Outcome α → Outcome β
  | Outcome.returned s r => Outcome.returned s (f r)
  | Outcome.parked s r => Outcome.parked s (f r)

/-! ## Concrete environments and states used to evaluate the code -/

/-- A fresh process: nothing written, no Auto-Ping goroutine, nobody parked on a channel. -/
def sysInit : Sys := ⟨[], [], [], []⟩

/-- Every write succeeds; the only file is `notes.txt`, holding `hi`. -/
def envOk : Env where
  WriteControl := fun _ _ _ => none
  WriteMessage := fun _ _ _ => none
  ReadFile := fun _ name =>
    if name = ascii "notes.txt" then Except.ok (ascii "hi") else Except.error (GoError.os 2)

/-- Every write fails with `conn 1` and every file read fails with `os 2`. -/
def envFail : Env where
  WriteControl := fun _ _ _ => some (GoError.conn 1)
  WriteMessage := fun _ _ _ => some (GoError.conn 1)
  ReadFile := fun _ _ => Except.error (GoError.os 2)

/-- The scenario payload of a path traversal request. -/
def traversalPayload : GoString := ascii "send me file:// secrets/../../etc/passwd"

/-- A file request whose path holds the request prefix once more, between two dots. -/
def innerPrefixPayload : GoString := ascii "send me file://a.send me file://.b"

/-! ## Facts about the string functions -/

namespace strings

theorem HasPrefix_iff {s pre : GoString} : HasPrefix s pre = true ↔ pre <+: s := by
  unfold HasPrefix
  exact List.isPrefixOf_iff_prefix

theorem Contains_iff {s substr : GoString} : Contains s substr = true ↔ substr <:+: s := by
  induction s with
  | nil =>
    simp only [Contains, HasPrefix_iff, List.prefix_nil, List.infix_nil]
  | cons c t ih =>
    simp only [Contains, Bool.or_eq_true, HasPrefix_iff, ih, List.infix_cons_iff]

theorem ReplaceAll_nil (old : GoString) : ReplaceAll [] old = [] := by
  rw [ReplaceAll.eq_def]
  by_cases h : old = []
  · simp [h]
  · have hp : HasPrefix [] old = false := by
      cases old with
      | nil => exact absurd rfl h
      | cons a l => rfl
    simp [h, hp]

theorem ReplaceAll_skip_old {s old : GoString} (h : old ≠ []) (hp : HasPrefix s old = true) :
    ReplaceAll s old = ReplaceAll (s.drop old.length) old := by
  rw [ReplaceAll.eq_def]
  simp [h, hp]

theorem ReplaceAll_cons {c : Nat} {t old : GoString} (h : old ≠ [])
    (hp : HasPrefix (c :: t) old = false) :
    ReplaceAll (c :: t) old = c :: ReplaceAll t old := by
  rw [ReplaceAll.eq_def]
  simp [h, hp]

/-- A pair `d d` that lies in `old ++ rest` lies in `rest` when `old` has no `d`. -/
theorem pair_infix_of_append {d : Nat} {old rest : GoString} (hd : d ∉ old)
    (h : [d, d] <:+: old ++ rest) : [d, d] <:+: rest := by
  induction old with
  | nil => simpa using h
  | cons x o ih =>
    have hx : d ≠ x := fun e => hd (by simp [e])
    have ho : d ∉ o := fun e => hd (List.mem_cons_of_mem _ e)
    rw [List.cons_append, List.infix_cons_iff] at h
    rcases h with h | h
    · exact absurd (List.cons_prefix_cons.mp h).1 hx
    · exact ih ho h

/-- No string that starts with `d` has a prefix `old` free of `d` (unless `old` is empty). -/
theorem HasPrefix_cons_of_not_mem {d : Nat} {t old : GoString} (h : old ≠ []) (hd : d ∉ old) :
    HasPrefix (d :: t) old = false := by
  cases old with
  | nil => exact absurd rfl h
  | cons x o =>
    have hx : x ≠ d := fun e => hd (by simp [e])
    rw [Bool.eq_false_iff]
    intro hp
    exact hx (List.cons_prefix_cons.mp (HasPrefix_iff.mp hp)).1

/-- Dropping the occurrences of `old` keeps a pair `d d` when `old` has no `d`. -/
theorem pair_infix_ReplaceAll {d : Nat} {old : GoString} (h : old ≠ []) (hd : d ∉ old) :
    ∀ (n : Nat) (s : GoString), s.length ≤ n → [d, d] <:+: s → [d, d] <:+: ReplaceAll s old := by
  intro n
  induction n with
  | zero =>
    intro s hn hs
    have : s = [] := List.length_eq_zero.mp (Nat.le_zero.mp hn)
    subst this
    simp at hs
  | succ n ih =>
    intro s hn hs
    by_cases hp : HasPrefix s old = true
    · rw [ReplaceAll_skip_old h hp]
      have hpre : old <+: s := HasPrefix_iff.mp hp
      obtain ⟨rest, hrest⟩ := hpre
      have hpos : 0 < old.length := List.length_pos.mpr h
      subst hrest
      have hdrop : List.drop old.length (old ++ rest) = rest := List.drop_left _ _
      rw [hdrop]
      apply ih
      · simp only [List.length_append] at hn
        omega
      · exact pair_infix_of_append hd hs
    · have hp2 : HasPrefix s old = false := by simpa using hp
      cases s with
      | nil => simp at hs
      | cons c t =>
        rw [ReplaceAll_cons h hp2]
        rw [List.infix_cons_iff] at hs
        rcases hs with hs | hs
        · obtain ⟨hc, ht⟩ := List.cons_prefix_cons.mp hs
          cases t with
          | nil => simp at ht
          | cons c2 t2 =>
            obtain ⟨hc2, _⟩ := List.cons_prefix_cons.mp ht
            subst hc
            subst hc2
            rw [ReplaceAll_cons h (HasPrefix_cons_of_not_mem h hd)]
            exact (List.prefix_append [d, d] _).isInfix
        · have hlen : t.length ≤ n := by
            simp only [List.length_cons] at hn
            omega
          exact (ih t hlen hs).trans (List.infix_cons (List.infix_refl _))

/-- A string without an occurrence of `old` is returned unchanged. -/
theorem ReplaceAll_of_not_infix {old : GoString} :
    ∀ s : GoString, ¬ old <:+: s → ReplaceAll s old = s := by
  intro s
  induction s with
  | nil => intro _; exact ReplaceAll_nil old
  | cons c t ih =>
    intro hs
    by_cases h : old = []
    · subst h
      exact absurd List.nil_infix hs
    · rw [List.infix_cons_iff, not_or] at hs
      have hp : HasPrefix (c :: t) old = false := by
        rw [Bool.eq_false_iff]
        exact fun e => hs.1 (HasPrefix_iff.mp e)
      rw [ReplaceAll_cons h hp, ih hs.2]

end strings

theorem sendMeCmdPrefix_eq :
    sendMeCmdPrefix = [115, 101, 110, 100, 32, 109, 101, 32, 102, 105, 108, 101, 58, 47, 47] := by
  decide

theorem sendMeCmdPrefix_ne_nil : sendMeCmdPrefix ≠ [] := by decide

theorem dot_not_mem_sendMeCmdPrefix : 46 ∉ sendMeCmdPrefix := by decide

theorem dots_eq : ascii ".." = [46, 46] := by decide

/-- A payload with `..` keeps it in the path `sendMeFile` derives. -/
theorem Contains_filePath {msg : GoString} (h : strings.Contains msg (ascii "..") = true) :
    strings.Contains (strings.ReplaceAll msg sendMeCmdPrefix) (ascii "..") = true := by
  rw [strings.Contains_iff, dots_eq] at *
  exact strings.pair_infix_ReplaceAll sendMeCmdPrefix_ne_nil dot_not_mem_sendMeCmdPrefix
    msg.length msg (le_refl _) h


/-! ## Facts about the functions of `wssvc.go` -/

theorem sendControlMessage_eq (env : Env) (messageType : Int) (message : GoString) (s : Sys) :
    sendControlMessage env messageType message s =
      (s.did (Effect.WriteControl messageType message),
        env.WriteControl s.trace messageType message) := by
  unfold sendControlMessage
  cases env.WriteControl s.trace messageType message <;> rfl

/-- A file request is none of the five fixed commands. -/
theorem not_command_of_HasPrefix {msg : GoString}
    (h : strings.HasPrefix msg sendMeCmdPrefix = true) :
    msg ≠ pingMeCmd ∧ msg ≠ pongMeCmd ∧ msg ≠ disconnectMeCmd ∧ msg ≠ startPingMeCmd ∧
      msg ≠ stopPingMeCmd := by
  refine ⟨?_, ?_, ?_, ?_, ?_⟩ <;>
  · intro e
    subst e
    revert h
    decide

theorem handleTextMessage_file (env : Env) (msg : GoString) (s : Sys)
    (h : strings.HasPrefix msg sendMeCmdPrefix = true) :
    handleTextMessage env msg s =
      Outcome.returned (sendMeFile env msg (ascii "/tmp") s).1
        (sendMeFile env msg (ascii "/tmp") s).2 := by
  obtain ⟨h1, h2, h3, h4, h5⟩ := not_command_of_HasPrefix h
  unfold handleTextMessage
  simp only [h1, h2, h3, h4, h5, h, if_false, if_true]

theorem handleTextMessage_generic (env : Env) (msg : GoString) (s : Sys)
    (h1 : msg ≠ pingMeCmd) (h2 : msg ≠ pongMeCmd) (h3 : msg ≠ startPingMeCmd)
    (h4 : msg ≠ stopPingMeCmd) (h5 : msg ≠ disconnectMeCmd)
    (h6 : strings.HasPrefix msg sendMeCmdPrefix = false) :
    handleTextMessage env msg s =
      Outcome.returned (s.did (Effect.WriteMessage websocket.TextMessage msg))
        (env.WriteMessage s.trace websocket.TextMessage msg) := by
  unfold handleTextMessage
  simp [h1, h2, h3, h4, h5, h6]

theorem handleTextMessage_pingMe (env : Env) (s : Sys) :
    handleTextMessage env pingMeCmd s =
      Outcome.returned (s.did (Effect.WriteControl websocket.PingMessage pingMeCmd))
        (env.WriteControl s.trace websocket.PingMessage pingMeCmd) := by
  unfold handleTextMessage
  simp [sendControlMessage_eq]

theorem handleTextMessage_pongMe (env : Env) (s : Sys) :
    handleTextMessage env pongMeCmd s =
      Outcome.returned (s.did (Effect.WriteControl websocket.PongMessage pongMeCmd))
        (env.WriteControl s.trace websocket.PongMessage pongMeCmd) := by
  have h1 : pongMeCmd ≠ pingMeCmd := by decide
  unfold handleTextMessage
  simp [h1, sendControlMessage_eq]

theorem handleTextMessage_disconnectMe (env : Env) (s : Sys) :
    handleTextMessage env disconnectMeCmd s =
      Outcome.returned (s.did (Effect.WriteControl websocket.CloseMessage disconnectMeCmd))
        (env.WriteControl s.trace websocket.CloseMessage disconnectMeCmd) := by
  have h1 : disconnectMeCmd ≠ pingMeCmd := by decide
  have h2 : disconnectMeCmd ≠ pongMeCmd := by decide
  unfold handleTextMessage
  simp [h1, h2, sendControlMessage_eq]

theorem handleTextMessage_startPingMe (env : Env) (s : Sys) :
    handleTextMessage env startPingMeCmd s =
      Outcome.returned { s with pings := s.pings ++ [PingPc.write] } none := by
  have h1 : startPingMeCmd ≠ pingMeCmd := by decide
  have h2 : startPingMeCmd ≠ pongMeCmd := by decide
  have h3 : startPingMeCmd ≠ disconnectMeCmd := by decide
  unfold handleTextMessage
  simp [h1, h2, h3]

theorem sendMeFile_reject (env : Env) (msg fsRoot : GoString) (s : Sys)
    (h : strings.Contains (strings.ReplaceAll msg sendMeCmdPrefix) (ascii "..") = true) :
    sendMeFile env msg fsRoot s =
      (s.did (Effect.WriteControl websocket.CloseMessage (ascii "close on read")),
        some (GoError.errorsNew "Reading file outside root")) := by
  unfold sendMeFile
  simp only [h, if_true, sendControlMessage_eq]

theorem sendMeFile_readError (env : Env) (msg fsRoot : GoString) (s : Sys) (e : GoError)
    (h : strings.Contains (strings.ReplaceAll msg sendMeCmdPrefix) (ascii "..") = false)
    (hr : env.ReadFile s.trace (strings.ReplaceAll msg sendMeCmdPrefix) = Except.error e) :
    sendMeFile env msg fsRoot s =
      (s.did (Effect.ReadFile (strings.ReplaceAll msg sendMeCmdPrefix)), some e) := by
  unfold sendMeFile
  simp [h, hr]

theorem sendMeFile_readOk (env : Env) (msg fsRoot : GoString) (s : Sys) (c : GoString)
    (h : strings.Contains (strings.ReplaceAll msg sendMeCmdPrefix) (ascii "..") = false)
    (hr : env.ReadFile s.trace (strings.ReplaceAll msg sendMeCmdPrefix) = Except.ok c) :
    sendMeFile env msg fsRoot s =
      (((s.did (Effect.ReadFile (strings.ReplaceAll msg sendMeCmdPrefix))).did
          (Effect.WriteMessage websocket.BinaryMessage c)),
        env.WriteMessage (s.trace ++ [Effect.ReadFile (strings.ReplaceAll msg sendMeCmdPrefix)])
          websocket.BinaryMessage c) := by
  unfold sendMeFile
  simp only [h, hr]
  cases hw : env.WriteMessage (s.did (Effect.ReadFile (strings.ReplaceAll msg sendMeCmdPrefix))).trace
      websocket.BinaryMessage c <;> simp_all [Sys.did]

theorem wsEndpointBody_text_eq (env : Env) (msg : GoString) (s s1 : Sys) (r : Option GoError)
    (h : handleTextMessage env msg s = Outcome.returned s1 r) :
    wsEndpointBody env websocket.TextMessage msg s = Outcome.returned s1 (stepAfter r) := by
  unfold wsEndpointBody
  have h1 : websocket.TextMessage ≠ websocket.CloseMessage := by decide
  have h2 : websocket.TextMessage ≠ websocket.BinaryMessage := by decide
  simp only [h1, h2, if_false, if_true, h]
  cases r <;> rfl

/-- A state without a live `startPingCmd` goroutine stays as it is under every schedule. -/
theorem runPings_of_no_pings (env : Env) (sched : List (Nat × Bool)) (s : Sys)
    (h : s.pings = []) : runPings env sched s = s := by
  induction sched with
  | nil => rfl
  | cons a rest ih =>
    obtain ⟨i, b⟩ := a
    have hstep : startPingCmdStep env i b s = none := by
      unfold startPingCmdStep
      simp [h]
    simp only [runPings, hstep, ih]


/-- The loop body on a text frame is the interpreter followed by `stepAfter`. -/
theorem wsEndpointBody_text_cases (env : Env) (msg : GoString) (s : Sys) :
    wsEndpointBody env websocket.TextMessage msg s =
      match handleTextMessage env msg s with
      | Outcome.returned s1 r => Outcome.returned s1 (stepAfter r)
      | Outcome.parked s1 r => Outcome.parked s1 (stepAfter r) := by
  unfold wsEndpointBody
  have h1 : websocket.TextMessage ≠ websocket.CloseMessage := by decide
  have h2 : websocket.TextMessage ≠ websocket.BinaryMessage := by decide
  simp only [h1, h2, if_false, if_true]
  cases handleTextMessage env msg s with
  | returned s1 r => cases r <;> rfl
  | parked s1 r => cases r <;> rfl

theorem handleTextMessage_stopPingMe (env : Env) (s : Sys) :
    handleTextMessage env stopPingMeCmd s =
      Outcome.parked { s with stopOnCancel := s.stopOnCancel ++ [ascii "cancelPing"] } none := by
  have h1 : stopPingMeCmd ≠ pingMeCmd := by decide
  have h2 : stopPingMeCmd ≠ pongMeCmd := by decide
  have h3 : stopPingMeCmd ≠ disconnectMeCmd := by decide
  have h4 : stopPingMeCmd ≠ startPingMeCmd := by decide
  unfold handleTextMessage
  simp [h1, h2, h3, h4]

/-- The loop body on a text frame, in every case of the interpreter's outcome. -/
theorem wsEndpointBody_text_map (env : Env) (msg : GoString) (s : Sys) :
    wsEndpointBody env websocket.TextMessage msg s =
      Outcome.map stepAfter (handleTextMessage env msg s) := by
  rw [wsEndpointBody_text_cases]
  cases handleTextMessage env msg s <;> rfl

/-- A goroutine standing at its `select` takes the value of a sender parked on
`stopOnClose` and returns. -/
theorem startPingCmdStep_takes_close (env : Env) (trace : List Effect) :
    startPingCmdStep env 0 true ⟨trace, [PingPc.select], [1], []⟩ = some ⟨trace, [], [], []⟩ := by
  rfl

/-- The path `sendMeFile` derives from the request for `notes.txt`. -/
theorem ReplaceAll_notes :
    strings.ReplaceAll (ascii "send me file://notes.txt") sendMeCmdPrefix = ascii "notes.txt" := by
  have e : ascii "send me file://notes.txt" = sendMeCmdPrefix ++ ascii "notes.txt" := by decide
  have hp : strings.HasPrefix (sendMeCmdPrefix ++ ascii "notes.txt") sendMeCmdPrefix = true := by
    decide
  rw [e, strings.ReplaceAll_skip_old sendMeCmdPrefix_ne_nil hp, List.drop_left]
  exact strings.ReplaceAll_of_not_infix _ (by decide)

/-- The path `sendMeFile` derives from `innerPrefixPayload`. -/
theorem ReplaceAll_innerPrefixPayload :
    strings.ReplaceAll innerPrefixPayload sendMeCmdPrefix = ascii "a..b" := by
  have e : innerPrefixPayload = sendMeCmdPrefix ++ (97 :: 46 :: (sendMeCmdPrefix ++ [46, 98])) := by
    decide
  have hp : strings.HasPrefix (sendMeCmdPrefix ++ (97 :: 46 :: (sendMeCmdPrefix ++ [46, 98])))
      sendMeCmdPrefix = true := by decide
  have ha : strings.HasPrefix (97 :: 46 :: (sendMeCmdPrefix ++ [46, 98])) sendMeCmdPrefix = false := by
    decide
  have hb : strings.HasPrefix (46 :: (sendMeCmdPrefix ++ [46, 98])) sendMeCmdPrefix = false := by
    decide
  have hq : strings.HasPrefix (sendMeCmdPrefix ++ [46, 98]) sendMeCmdPrefix = true := by decide
  rw [e, strings.ReplaceAll_skip_old sendMeCmdPrefix_ne_nil hp, List.drop_left,
    strings.ReplaceAll_cons sendMeCmdPrefix_ne_nil ha,
    strings.ReplaceAll_cons sendMeCmdPrefix_ne_nil hb,
    strings.ReplaceAll_skip_old sendMeCmdPrefix_ne_nil hq, List.drop_left,
    strings.ReplaceAll_of_not_infix _ (by decide)]
  decide

/-! ## The claims -/

/-- C1: a file request (a payload that begins with `send me file://`) containing `..`
anywhere makes `sendMeFile` attempt exactly one operation, the close control frame with
payload `close on read`: no file is read and no binary frame is written, and the call
returns the path traversal error whatever the answer to that write was.  The command
interpreter hands the payload to `sendMeFile` and returns the same. -/
theorem sendMeFile_rejects_parent_reference (env : Env) (msg fsRoot : GoString) (s : Sys)
    (hreq : strings.HasPrefix msg sendMeCmdPrefix = true)
    (hdots : strings.Contains msg (ascii "..") = true) :
    sendMeFile env msg fsRoot s =
        (s.did (Effect.WriteControl websocket.CloseMessage (ascii "close on read")),
          some (GoError.errorsNew "Reading file outside root")) ∧
      handleTextMessage env msg s =
        Outcome.returned (s.did (Effect.WriteControl websocket.CloseMessage (ascii "close on read")))
          (some (GoError.errorsNew "Reading file outside root")) := by
  have hrej := fun root => sendMeFile_reject env msg root s (Contains_filePath hdots)
  refine ⟨hrej fsRoot, ?_⟩
  rw [handleTextMessage_file env msg s hreq, hrej]

theorem sendMeFile_rejects_parent_reference_witness :
    strings.HasPrefix traversalPayload sendMeCmdPrefix = true ∧
      strings.Contains traversalPayload (ascii "..") = true ∧
      sendMeFile envFail traversalPayload (ascii "/tmp") sysInit =
        (sysInit.did (Effect.WriteControl websocket.CloseMessage (ascii "close on read")),
          some (GoError.errorsNew "Reading file outside root")) ∧
      handleTextMessage envFail traversalPayload sysInit =
        Outcome.returned
          (sysInit.did (Effect.WriteControl websocket.CloseMessage (ascii "close on read")))
          (some (GoError.errorsNew "Reading file outside root")) :=
  ⟨by decide, by decide,
    sendMeFile_rejects_parent_reference envFail traversalPayload (ascii "/tmp") sysInit
      (by decide) (by decide)⟩

/-- C2: the code at the payload `send me file://a.send me file://.b`.  The payload begins
with the request prefix and its remainder after that one prefix, `a.send me file://.b`,
has no `..`; the path `sendMeFile` checks is `a..b`, since `strings.ReplaceAll` drops the
second occurrence of the prefix too, and the request is rejected as a path traversal. -/
theorem sendMeFile_innerPrefixPayload :
    strings.HasPrefix innerPrefixPayload sendMeCmdPrefix = true ∧
      innerPrefixPayload.drop sendMeCmdPrefix.length = ascii "a.send me file://.b" ∧
      strings.Contains (ascii "a.send me file://.b") (ascii "..") = false ∧
      strings.ReplaceAll innerPrefixPayload sendMeCmdPrefix = ascii "a..b" ∧
      sendMeFile envOk innerPrefixPayload (ascii "/tmp") sysInit =
        (sysInit.did (Effect.WriteControl websocket.CloseMessage (ascii "close on read")),
          some (GoError.errorsNew "Reading file outside root")) := by
  refine ⟨by decide, by decide, by decide, ReplaceAll_innerPrefixPayload, ?_⟩
  apply sendMeFile_reject
  rw [ReplaceAll_innerPrefixPayload]
  decide

/-- C3: for the payloads `ping me`, `pong me` and `disconnect me` the interpreter
attempts exactly one operation, a control frame of type ping, pong and close with the
command text as payload; the Auto-Ping goroutines and both channels are left as they
were, and the call returns the answer to that write (an error exactly when the write
failed). -/
theorem handleTextMessage_control_commands (env : Env) (s : Sys) :
    handleTextMessage env pingMeCmd s =
        Outcome.returned
          { s with trace := s.trace ++ [Effect.WriteControl websocket.PingMessage pingMeCmd] }
          (env.WriteControl s.trace websocket.PingMessage pingMeCmd) ∧
      handleTextMessage env pongMeCmd s =
        Outcome.returned
          { s with trace := s.trace ++ [Effect.WriteControl websocket.PongMessage pongMeCmd] }
          (env.WriteControl s.trace websocket.PongMessage pongMeCmd) ∧
      handleTextMessage env disconnectMeCmd s =
        Outcome.returned
          { s with
            trace := s.trace ++ [Effect.WriteControl websocket.CloseMessage disconnectMeCmd] }
          (env.WriteControl s.trace websocket.CloseMessage disconnectMeCmd) :=
  ⟨handleTextMessage_pingMe env s, handleTextMessage_pongMe env s,
    handleTextMessage_disconnectMe env s⟩

/-- C4: a payload that is none of the five fixed commands and does not begin with
`send me file://` makes the interpreter write exactly one frame, a text frame with the
bytes of the payload, and no control frame; the call returns the answer to that write. -/
theorem handleTextMessage_echo (env : Env) (msg : GoString) (s : Sys)
    (h1 : msg ≠ pingMeCmd) (h2 : msg ≠ pongMeCmd) (h3 : msg ≠ startPingMeCmd)
    (h4 : msg ≠ stopPingMeCmd) (h5 : msg ≠ disconnectMeCmd)
    (h6 : strings.HasPrefix msg sendMeCmdPrefix = false) :
    handleTextMessage env msg s =
      Outcome.returned
        { s with trace := s.trace ++ [Effect.WriteMessage websocket.TextMessage msg] }
        (env.WriteMessage s.trace websocket.TextMessage msg) :=
  handleTextMessage_generic env msg s h1 h2 h3 h4 h5 h6

theorem handleTextMessage_echo_witness :
    handleTextMessage envOk (ascii "hello world") sysInit =
      Outcome.returned
        { sysInit with
          trace := sysInit.trace ++
            [Effect.WriteMessage websocket.TextMessage (ascii "hello world")] }
        (envOk.WriteMessage sysInit.trace websocket.TextMessage (ascii "hello world")) :=
  handleTextMessage_echo envOk (ascii "hello world") sysInit (by decide) (by decide) (by decide)
    (by decide) (by decide) (by decide)

/-- C5: for a binary frame the loop writes back exactly one frame, of binary type and
with the bytes received, and it returns after that frame exactly when the write failed;
otherwise it goes on to read the next frame. -/
theorem wsEndpointBody_binary (env : Env) (msg : GoString) (s : Sys) :
    wsEndpointBody env websocket.BinaryMessage msg s =
        Outcome.returned
          { s with trace := s.trace ++ [Effect.WriteMessage websocket.BinaryMessage msg] }
          (stepAfter (env.WriteMessage s.trace websocket.BinaryMessage msg)) ∧
      (stepAfter (env.WriteMessage s.trace websocket.BinaryMessage msg) = LoopStep.exit ↔
        env.WriteMessage s.trace websocket.BinaryMessage msg ≠ none) := by
  have h1 : websocket.BinaryMessage ≠ websocket.CloseMessage := by decide
  constructor
  · unfold wsEndpointBody
    simp only [h1, if_false, if_true]
    cases env.WriteMessage s.trace websocket.BinaryMessage msg <;> rfl
  · cases env.WriteMessage s.trace websocket.BinaryMessage msg <;> simp [stepAfter]


/-- C6: when the path `sendMeFile` derives from the request has no `..`, the name given
to `os.ReadFile` is that path itself, not joined with the root argument: the call does
and returns the same for any two roots.  If the read gives contents `c`, exactly one
frame is written, a binary frame with bytes `c`, and the answer to that write is
returned; if the read fails, its error is returned and nothing is written. -/
theorem sendMeFile_reads_requested_path (env : Env) (msg fsRoot : GoString) (s : Sys)
    (h : strings.Contains (strings.ReplaceAll msg sendMeCmdPrefix) (ascii "..") = false) :
    (∀ fsRoot2 : GoString, sendMeFile env msg fsRoot s = sendMeFile env msg fsRoot2 s) ∧
      (∀ c : GoString,
        env.ReadFile s.trace (strings.ReplaceAll msg sendMeCmdPrefix) = Except.ok c →
        sendMeFile env msg fsRoot s =
          ({ s with
              trace := s.trace ++ [Effect.ReadFile (strings.ReplaceAll msg sendMeCmdPrefix),
                Effect.WriteMessage websocket.BinaryMessage c] },
            env.WriteMessage
              (s.trace ++ [Effect.ReadFile (strings.ReplaceAll msg sendMeCmdPrefix)])
              websocket.BinaryMessage c)) ∧
      (∀ e : GoError,
        env.ReadFile s.trace (strings.ReplaceAll msg sendMeCmdPrefix) = Except.error e →
        sendMeFile env msg fsRoot s =
          ({ s with
              trace := s.trace ++ [Effect.ReadFile (strings.ReplaceAll msg sendMeCmdPrefix)] },
            some e)) := by
  refine ⟨fun _ => rfl, ?_, ?_⟩
  · intro c hc
    rw [sendMeFile_readOk env msg fsRoot s c h hc]
    simp [Sys.did]
  · intro e he
    rw [sendMeFile_readError env msg fsRoot s e h he]
    rfl

theorem sendMeFile_reads_requested_path_witness :
    strings.Contains (strings.ReplaceAll (ascii "send me file://notes.txt") sendMeCmdPrefix)
        (ascii "..") = false ∧
      sendMeFile envOk (ascii "send me file://notes.txt") (ascii "/tmp") sysInit =
        ({ sysInit with
            trace := [Effect.ReadFile (ascii "notes.txt"),
              Effect.WriteMessage websocket.BinaryMessage (ascii "hi")] },
          none) := by
  have hc : strings.Contains (strings.ReplaceAll (ascii "send me file://notes.txt") sendMeCmdPrefix)
      (ascii "..") = false := by
    rw [ReplaceAll_notes]
    decide
  have hr : envOk.ReadFile sysInit.trace
      (strings.ReplaceAll (ascii "send me file://notes.txt") sendMeCmdPrefix) =
        Except.ok (ascii "hi") := by
    rw [ReplaceAll_notes]
    rfl
  have h := (sendMeFile_reads_requested_path envOk (ascii "send me file://notes.txt")
    (ascii "/tmp") sysInit hc).2.1 (ascii "hi") hr
  rw [ReplaceAll_notes] at h
  exact ⟨hc, h⟩

/-- C7, the claim refuted: from a fresh process `start ping me` starts an Auto-Ping
goroutine, which sends its first ping and reaches its `select`; a second
`start ping me` then starts a second goroutine beside the live one, and it sends a
ping of its own. -/
theorem second_auto_ping_task_started :
    handleTextMessage envOk startPingMeCmd sysInit =
        Outcome.returned ⟨[], [PingPc.write], [], []⟩ none ∧
      startPingCmdStep envOk 0 true ⟨[], [PingPc.write], [], []⟩ =
        some ⟨[Effect.WriteControl websocket.PingMessage startPingMeCmd],
          [PingPc.select], [], []⟩ ∧
      handleTextMessage envOk startPingMeCmd
          ⟨[Effect.WriteControl websocket.PingMessage startPingMeCmd],
            [PingPc.select], [], []⟩ =
        Outcome.returned
          ⟨[Effect.WriteControl websocket.PingMessage startPingMeCmd],
            [PingPc.select, PingPc.write], [], []⟩ none ∧
      startPingCmdStep envOk 1 true
          ⟨[Effect.WriteControl websocket.PingMessage startPingMeCmd],
            [PingPc.select, PingPc.write], [], []⟩ =
        some ⟨[Effect.WriteControl websocket.PingMessage startPingMeCmd,
            Effect.WriteControl websocket.PingMessage startPingMeCmd],
          [PingPc.select, PingPc.select], [], []⟩ := by
  decide

/-- C7, amended: `start ping me` starts an Auto-Ping goroutine unconditionally.  In
every state the interpreter adds one goroutine, standing at its first write, to the
live ones, whatever their number, writes nothing itself and returns `nil`. -/
theorem handleTextMessage_startPingMe_always_starts (env : Env) (s : Sys) :
    handleTextMessage env startPingMeCmd s =
        Outcome.returned { s with pings := s.pings ++ [PingPc.write] } none ∧
      ({ s with pings := s.pings ++ [PingPc.write] } : Sys).pings.length =
        s.pings.length + 1 :=
  ⟨handleTextMessage_startPingMe env s, by simp⟩

/-- C8, the claim refuted: when the pong write fails, the ping handler returns that
error. -/
theorem pingHandler_returns_write_error :
    pingHandler envFail (ascii "hi") sysInit =
      (⟨[Effect.WriteControl websocket.PongMessage (ascii "hi")], [], [], []⟩,
        some (GoError.conn 1)) := by
  decide

/-- C8, amended: the ping handler attempts exactly one operation, a pong control frame
with the payload received, and returns the answer to that write: `nil` when it
succeeded, the write error when it failed. -/
theorem pingHandler_replies_pong (env : Env) (payload : GoString) (s : Sys) :
    pingHandler env payload s =
      ({ s with trace := s.trace ++ [Effect.WriteControl websocket.PongMessage payload] },
        env.WriteControl s.trace websocket.PongMessage payload) := by
  unfold pingHandler
  cases env.WriteControl s.trace websocket.PongMessage payload <;> rfl


/-- C9: for a text frame the loop returns after handling it exactly when the
interpreter returned an error, and reads the next frame exactly when the interpreter
returned `nil`.  So a failed control frame or text frame write, a path traversal
rejection, a failed file read and a failed file content write each end the loop, while
`disconnect me`, `ping me` and `pong me` whose write succeeded, `start ping me`, and a
successful echo or file transfer leave it running.  In every case, the parked one
included, the loop does what the interpreter's result says (`Outcome.map stepAfter`):
while the interpreter is parked in its send the loop is parked with it, and it ends
afterwards exactly when the interpreter then returns an error; for `stop ping me`,
which returns `nil` once its value is taken, the loop then reads the next frame. -/
theorem wsEndpointBody_text_exit_iff_error (env : Env) (msg : GoString) (s : Sys) :
    (∀ s1 : Sys, wsEndpointBody env websocket.TextMessage msg s =
          Outcome.returned s1 LoopStep.exit ↔
        ∃ e : GoError, handleTextMessage env msg s = Outcome.returned s1 (some e)) ∧
      (∀ s1 : Sys, wsEndpointBody env websocket.TextMessage msg s =
          Outcome.returned s1 LoopStep.next ↔
        handleTextMessage env msg s = Outcome.returned s1 none) ∧
      wsEndpointBody env websocket.TextMessage pingMeCmd s =
        Outcome.returned (s.did (Effect.WriteControl websocket.PingMessage pingMeCmd))
          (stepAfter (env.WriteControl s.trace websocket.PingMessage pingMeCmd)) ∧
      wsEndpointBody env websocket.TextMessage pongMeCmd s =
        Outcome.returned (s.did (Effect.WriteControl websocket.PongMessage pongMeCmd))
          (stepAfter (env.WriteControl s.trace websocket.PongMessage pongMeCmd)) ∧
      wsEndpointBody env websocket.TextMessage disconnectMeCmd s =
        Outcome.returned (s.did (Effect.WriteControl websocket.CloseMessage disconnectMeCmd))
          (stepAfter (env.WriteControl s.trace websocket.CloseMessage disconnectMeCmd)) ∧
      wsEndpointBody env websocket.TextMessage startPingMeCmd s =
        Outcome.returned { s with pings := s.pings ++ [PingPc.write] } LoopStep.next ∧
      (msg ≠ pingMeCmd → msg ≠ pongMeCmd → msg ≠ startPingMeCmd → msg ≠ stopPingMeCmd →
        msg ≠ disconnectMeCmd → strings.HasPrefix msg sendMeCmdPrefix = false →
        wsEndpointBody env websocket.TextMessage msg s =
          Outcome.returned (s.did (Effect.WriteMessage websocket.TextMessage msg))
            (stepAfter (env.WriteMessage s.trace websocket.TextMessage msg))) ∧
      (strings.HasPrefix msg sendMeCmdPrefix = true →
        strings.Contains msg (ascii "..") = true →
        wsEndpointBody env websocket.TextMessage msg s =
          Outcome.returned
            (s.did (Effect.WriteControl websocket.CloseMessage (ascii "close on read")))
            LoopStep.exit) ∧
      (strings.HasPrefix msg sendMeCmdPrefix = true →
        strings.Contains (strings.ReplaceAll msg sendMeCmdPrefix) (ascii "..") = false →
        ∀ e : GoError,
          env.ReadFile s.trace (strings.ReplaceAll msg sendMeCmdPrefix) = Except.error e →
          wsEndpointBody env websocket.TextMessage msg s =
            Outcome.returned (s.did (Effect.ReadFile (strings.ReplaceAll msg sendMeCmdPrefix)))
              LoopStep.exit) ∧
      (strings.HasPrefix msg sendMeCmdPrefix = true →
        strings.Contains (strings.ReplaceAll msg sendMeCmdPrefix) (ascii "..") = false →
        ∀ c : GoString,
          env.ReadFile s.trace (strings.ReplaceAll msg sendMeCmdPrefix) = Except.ok c →
          wsEndpointBody env websocket.TextMessage msg s =
            Outcome.returned
              ((s.did (Effect.ReadFile (strings.ReplaceAll msg sendMeCmdPrefix))).did
                (Effect.WriteMessage websocket.BinaryMessage c))
              (stepAfter (env.WriteMessage
                (s.trace ++ [Effect.ReadFile (strings.ReplaceAll msg sendMeCmdPrefix)])
                websocket.BinaryMessage c))) ∧
      wsEndpointBody env websocket.TextMessage msg s =
        Outcome.map stepAfter (handleTextMessage env msg s) ∧
      (∀ s1 : Sys, wsEndpointBody env websocket.TextMessage msg s =
          Outcome.parked s1 LoopStep.exit ↔
        ∃ e : GoError, handleTextMessage env msg s = Outcome.parked s1 (some e)) ∧
      (∀ s1 : Sys, wsEndpointBody env websocket.TextMessage msg s =
          Outcome.parked s1 LoopStep.next ↔
        handleTextMessage env msg s = Outcome.parked s1 none) ∧
      wsEndpointBody env websocket.TextMessage stopPingMeCmd s =
        Outcome.parked { s with stopOnCancel := s.stopOnCancel ++ [ascii "cancelPing"] }
          LoopStep.next := by
  refine ⟨?_, ?_, ?_, ?_, ?_, ?_, ?_, ?_, ?_, ?_, ?_, ?_, ?_, ?_⟩
  · intro s1
    rw [wsEndpointBody_text_cases]
    cases handleTextMessage env msg s with
    | returned s2 r => cases r <;> simp [stepAfter]
    | parked s2 r => simp
  · intro s1
    rw [wsEndpointBody_text_cases]
    cases handleTextMessage env msg s with
    | returned s2 r => cases r <;> simp [stepAfter]
    | parked s2 r => simp
  · exact wsEndpointBody_text_eq env _ s _ _ (handleTextMessage_pingMe env s)
  · exact wsEndpointBody_text_eq env _ s _ _ (handleTextMessage_pongMe env s)
  · exact wsEndpointBody_text_eq env _ s _ _ (handleTextMessage_disconnectMe env s)
  · exact wsEndpointBody_text_eq env _ s _ _ (handleTextMessage_startPingMe env s)
  · intro h1 h2 h3 h4 h5 h6
    exact wsEndpointBody_text_eq env _ s _ _ (handleTextMessage_generic env msg s h1 h2 h3 h4 h5 h6)
  · intro hp hd
    have h := handleTextMessage_file env msg s hp
    rw [sendMeFile_reject env msg _ s (Contains_filePath hd)] at h
    exact wsEndpointBody_text_eq env _ s _ _ h
  · intro hp hd e he
    have h := handleTextMessage_file env msg s hp
    rw [sendMeFile_readError env msg _ s e hd he] at h
    exact wsEndpointBody_text_eq env _ s _ _ h
  · intro hp hd c hc
    have h := handleTextMessage_file env msg s hp
    rw [sendMeFile_readOk env msg _ s c hd hc] at h
    exact wsEndpointBody_text_eq env _ s _ _ h
  · exact wsEndpointBody_text_map env msg s
  · intro s1
    rw [wsEndpointBody_text_cases]
    cases handleTextMessage env msg s with
    | returned s2 r => simp
    | parked s2 r => cases r <;> simp [stepAfter]
  · intro s1
    rw [wsEndpointBody_text_cases]
    cases handleTextMessage env msg s with
    | returned s2 r => simp
    | parked s2 r => cases r <;> simp [stepAfter]
  · rw [wsEndpointBody_text_map, handleTextMessage_stopPingMe]
    rfl

theorem wsEndpointBody_text_exit_iff_error_witness :
    wsEndpointBody envFail websocket.TextMessage (ascii "hello world") sysInit =
        Outcome.returned
          (sysInit.did (Effect.WriteMessage websocket.TextMessage (ascii "hello world")))
          LoopStep.exit ∧
      wsEndpointBody envOk websocket.TextMessage (ascii "hello world") sysInit =
        Outcome.returned
          (sysInit.did (Effect.WriteMessage websocket.TextMessage (ascii "hello world")))
          LoopStep.next ∧
      wsEndpointBody envOk websocket.TextMessage traversalPayload sysInit =
        Outcome.returned
          (sysInit.did (Effect.WriteControl websocket.CloseMessage (ascii "close on read")))
          LoopStep.exit ∧
      wsEndpointBody envFail websocket.TextMessage (ascii "send me file://notes.txt") sysInit =
        Outcome.returned (sysInit.did (Effect.ReadFile (ascii "notes.txt"))) LoopStep.exit ∧
      wsEndpointBody envOk websocket.TextMessage (ascii "send me file://notes.txt") sysInit =
        Outcome.returned
          ((sysInit.did (Effect.ReadFile (ascii "notes.txt"))).did
            (Effect.WriteMessage websocket.BinaryMessage (ascii "hi")))
          LoopStep.next ∧
      wsEndpointBody envFail websocket.TextMessage stopPingMeCmd sysInit =
        Outcome.parked ⟨[], [], [], [ascii "cancelPing"]⟩ LoopStep.next := by
  have hc : strings.Contains (strings.ReplaceAll (ascii "send me file://notes.txt") sendMeCmdPrefix)
      (ascii "..") = false := by
    rw [ReplaceAll_notes]
    decide
  have e1 := (wsEndpointBody_text_exit_iff_error envFail (ascii "hello world") sysInit).2.2.2.2.2.2.1
    (by decide) (by decide) (by decide) (by decide) (by decide) (by decide)
  have e2 := (wsEndpointBody_text_exit_iff_error envOk (ascii "hello world") sysInit).2.2.2.2.2.2.1
    (by decide) (by decide) (by decide) (by decide) (by decide) (by decide)
  have e3 := (wsEndpointBody_text_exit_iff_error envOk traversalPayload sysInit).2.2.2.2.2.2.2.1
    (by decide) (by decide)
  have e4 := (wsEndpointBody_text_exit_iff_error envFail (ascii "send me file://notes.txt") sysInit).2.2.2.2.2.2.2.2.1
    (by decide) hc (GoError.os 2) rfl
  have e5 := (wsEndpointBody_text_exit_iff_error envOk (ascii "send me file://notes.txt") sysInit).2.2.2.2.2.2.2.2.2.1
    (by decide) hc (ascii "hi") (by rw [ReplaceAll_notes]; rfl)
  have e6 := (wsEndpointBody_text_exit_iff_error envFail stopPingMeCmd sysInit).2.2.2.2.2.2.2.2.2.2.2.2.2
  rw [ReplaceAll_notes] at e4 e5
  exact ⟨e1, e2, e3, e4, e5, e6⟩

/-- C10: the code where no Auto-Ping goroutine is live.  The close handler parks the
session goroutine in its send on the unbuffered `stopOnClose`, with its value queued
and `return nil` still ahead; under every schedule of the `startPingCmd` goroutines
the state stays as it is, so the value is never taken and the handler never returns. -/
theorem closeHandler_parks_without_ping_task (env : Env) (code : Int) (text : GoString)
    (trace : List Effect) (closeq : List Int) (cancelq : List GoString)
    (sched : List (Nat × Bool)) :
    closeHandler code text ⟨trace, [], closeq, cancelq⟩ =
        Outcome.parked ⟨trace, [], closeq ++ [1], cancelq⟩ none ∧
      runPings env sched ⟨trace, [], closeq ++ [1], cancelq⟩ =
        ⟨trace, [], closeq ++ [1], cancelq⟩ :=
  ⟨rfl, runPings_of_no_pings env sched _ rfl⟩

end Wssvc
